import Mathlib

/-!
Verification of the claude-code-router-switcher configuration tool.

The Python sources (package `claude_code_router_switcher`, files
`config_manager.py` and `cli.py`) are embedded shallowly below:

* the persisted JSON document becomes the `Config` structure (its two
  relevant top-level keys, each possibly absent);
* every `ConfigManager` operation becomes a pure function
  `Config → Except Err Config × List Config`, where the second component
  is the list of documents passed to `save_config`, in order (the write
  log); the stored document after an operation is the last write, or the
  original document when no write happened;
* the CLI-layer operations (`change_router`, `delete_router`,
  `delete_model`, `set_long_context_threshold`, the per-provider body of
  `update_models`) are embedded on top of those, threading the document
  state exactly as the Python threads it through fresh load/save cycles;
* HTTP probes and fetches are external inputs, passed as explicit
  outcome values (`ProbeOutcome`, `FetchOutcome`);
* Python `set` objects are embedded as lists deduplicated keeping the
  first occurrence; every property proved about them is insensitive to
  the iteration order that Python leaves unspecified;
* string manipulation (`split`, `rsplit`, `strip`, `endswith`,
  `rstrip`) is defined structurally over the character list of a
  `String`, mirroring Python semantics.
-/

namespace CCRS

/-- A value stored in the `Router` section of the document: router
assignments are strings, `longContextThreshold` is an integer. -/
inductive RVal where
  | str (s : String)
  | int (n : Int)
deriving DecidableEq

/-- A provider record: `name`, `api_base_url`, optional `api_key`,
and the `models` list. -/
structure Provider where
  name : String
  api_base_url : String
  api_key : Option String := none
  models : List String
deriving DecidableEq

/-- The configuration document, restricted to the two top-level keys the
tool reads and writes.  `none` models an absent key. -/
structure Config where
  router : Option (List (String × RVal))
  providers : Option (List Provider)
deriving DecidableEq

/-- The error taxonomy: each constructor corresponds to one distinct
failure condition surfaced by the Python code (a raised `ValueError`,
an error message followed by `sys.exit(1)`, or an uncaught runtime
type error). -/
inductive Err where
  | duplicateProvider
  | providerNotFound
  | modelNotFound
  | preconditionFailed
  | invalidRouterType
  | modelNotInProvider
  | ambiguousModel
  | typeCrash
deriving DecidableEq

/-! ### Python string primitives, over character lists -/

/-- Python whitespace characters stripped by `str.strip()`. -/
def pyWS (c : Char) : Bool :=
  c = ' ' ∨ c = '\t' ∨ c = '\n' ∨ c = '\r' ∨ c = Char.ofNat 11 ∨ c = Char.ofNat 12

/-- Python `str.strip()` on a character list. -/
def chStrip (l : List Char) : List Char :=
  ((l.dropWhile pyWS).reverse.dropWhile pyWS).reverse

/-- Python `str.strip()`. -/
def pyStrip (s : String) : String := String.mk (chStrip s.data)

/-- Split a character list at every comma (all groups, in order). -/
def chSplitComma : List Char → List (List Char)
  | [] => [[]]
  | c :: cs =>
    let r := chSplitComma cs
    if c = ',' then [] :: r
    else
      match r with
      | [] => [[c]]
      | g :: gs => (c :: g) :: gs

/-- Python `s.rsplit(",", 1)[1]`: the substring after the last comma
(the whole string when there is no comma). -/
def afterLastComma (s : String) : String :=
  String.mk ((chSplitComma s.data).getLastD s.data)

/-- Python `s.split(",", 1)`: the part before the first comma and the
rest (used only when a comma is present). -/
def chSplitFirst : List Char → List Char × List Char
  | [] => ([], [])
  | c :: cs =>
    if c = ',' then ([], cs)
    else
      let (a, b) := chSplitFirst cs
      (c :: a, b)

/-- Python `s.split(",", 1)` as a pair of strings. -/
def splitFirstComma (s : String) : String × String :=
  let (a, b) := chSplitFirst s.data
  (String.mk a, String.mk b)

/-- Python `"," in s`. -/
def hasComma (s : String) : Bool := s.data.contains ','

/-- Python `s.endswith(t)`. -/
def endsWithStr (s t : String) : Bool := t.data.isSuffixOf s.data

/-- Python `s.rstrip('/')`: drop every trailing slash. -/
def rstripSlashes (s : String) : String :=
  String.mk ((s.data.reverse.dropWhile (fun c => c = '/')).reverse)

/-! ### Association-list helpers for the Router section (a JSON object
with unique keys, in insertion order) -/

/-- Python `d[k]` / `d.get(k)` on an object with string keys: the value
at the key, if present. -/
def getKey {β : Type} (r : List (String × β)) (k : String) : Option β :=
  match r with
  | [] => none
  | kv :: t => if kv.1 = k then some kv.2 else getKey t k

/-- Python `d[k] = v` on an object: replace in place, or append. -/
def setKey (r : List (String × RVal)) (k : String) (v : RVal) :
    List (String × RVal) :=
  if r.any (fun kv => kv.1 = k) then
    r.map (fun kv => if kv.1 = k then (k, v) else kv)
  else r ++ [(k, v)]

/-- Python `d.pop(k, None)` on an object: remove the key if present. -/
def popKey (r : List (String × RVal)) (k : String) : List (String × RVal) :=
  r.filter (fun kv => kv.1 ≠ k)

/-- Python truthiness of a router value (`if not long_context`). -/
def truthy : RVal → Bool
  | .str s => s ≠ ""
  | .int n => n ≠ 0

/-! ### ConfigManager operations (`config_manager.py`)

Each mutating operation returns the raised error or the final in-memory
document, paired with the write log: the documents handed to
`save_config`, in order.  The Python code raises every error before its
single `save_config` call, which the embedding reflects verbatim. -/

/-- Embeds `ConfigManager.get_router_config`: `config.get("Router", {})`. -/
def get_router_config (c : Config) : List (String × RVal) := c.router.getD []

/-- Embeds `ConfigManager.get_providers`: `config.get("Providers", [])`. -/
def get_providers (c : Config) : List Provider := c.providers.getD []

/-- Embeds `ConfigManager.update_router_config`: replace the `Router` section
and save once. -/
def update_router_config (c : Config) (r : List (String × RVal)) :
    Config × List Config :=
  let c' : Config := { c with router := some r }
  (c', [c'])

/-- Embeds `ConfigManager.add_provider`: raise on a name or base-URL collision
(checked before anything is written), else append and save once. -/
def add_provider (c : Config) (p : Provider) :
    Except Err Config × List Config :=
  if (get_providers c).any
      (fun q => q.name = p.name ∨ q.api_base_url = p.api_base_url) then
    (.error .duplicateProvider, [])
  else
    let c' : Config := { c with providers := some (get_providers c ++ [p]) }
    (.ok c', [c'])

/-- The provider-list traversal of `ConfigManager.add_model_to_provider`:
find the first provider with the given name; `none` when there is none,
otherwise the updated list and whether a write happens (the model was
absent). -/
def addModelList (ps : List Provider) (pname mname : String) :
    Option (List Provider × Bool) :=
  match ps with
  | [] => none
  | p :: rest =>
    if p.name = pname then
      if mname ∈ p.models then some (p :: rest, false)
      else some ({ p with models := p.models ++ [mname] } :: rest, true)
    else
      match addModelList rest pname mname with
      | none => none
      | some (ps', w) => some (p :: ps', w)

/-- Embeds `ConfigManager.add_model_to_provider`: raise `ProviderNotFound` when
no provider matches; append-and-save when the model is new; silently
succeed without saving when it is already present. -/
def add_model_to_provider (c : Config) (pname mname : String) :
    Except Err Config × List Config :=
  match addModelList (get_providers c) pname mname with
  | none => (.error .providerNotFound, [])
  | some (_, false) => (.ok c, [])
  | some (ps', true) =>
    let c' : Config := { c with providers := some ps' }
    (.ok c', [c'])

/-- Embeds `ConfigManager.delete_provider`: filter out the matching records;
raise when nothing was removed, else save once. -/
def delete_provider (c : Config) (pname : String) :
    Except Err Config × List Config :=
  let ps := get_providers c
  let ps' := ps.filter (fun p => p.name ≠ pname)
  if ps'.length = ps.length then (.error .providerNotFound, [])
  else
    let c' : Config := { c with providers := some ps' }
    (.ok c', [c'])

/-- Python `list.remove`: drop the first occurrence. -/
def removeFirst (l : List String) (m : String) : List String :=
  match l with
  | [] => []
  | x :: xs => if x = m then xs else x :: removeFirst xs m

/-- Embeds `ConfigManager.delete_model`: remove the named model from every
provider containing it; raise `ModelNotFound` when none did (nothing was
mutated in that case), else save once. -/
def delete_model (c : Config) (mname : String) :
    Except Err Config × List Config :=
  let ps := get_providers c
  if ps.any (fun p => mname ∈ p.models) then
    let ps' := ps.map (fun p =>
      if mname ∈ p.models then { p with models := removeFirst p.models mname }
      else p)
    let c' : Config := { c with providers := some ps' }
    (.ok c', [c'])
  else (.error .modelNotFound, [])

/-! ### CLI-layer operations (`cli.py`)

Each CLI operation loads the document fresh through the manager, so the
embedding threads the document state through the same call sequence.
Error paths in the Python print and `sys.exit(1)` before any save; the
write log again records the saved documents in order. -/

/-- Router types accepted by `change_router`. -/
def validTypes : List String :=
  ["default", "background", "think", "longContext", "webSearch"]

/-- Router types accepted by `delete_router` (`default` excluded). -/
def deletableTypes : List String :=
  ["background", "think", "longContext", "webSearch"]

/-- The last provider record carrying a given name: Python's
`get_all_models` builds a dict keyed by name, so a later record with the
same name shadows an earlier one. -/
def lastNamed (ps : List Provider) (pname : String) : Option Provider :=
  (ps.filter (fun p => p.name = pname)).getLast?

/-- Embeds `ConfigManager.validate_provider_model`. -/
def validate_provider_model (c : Config) (pname mname : String) : Bool :=
  match lastNamed (get_providers c) pname with
  | some p => mname ∈ p.models
  | none => false

/-- Deduplication keeping first occurrences, matching the key order of a
Python dict built by insertion. -/
def dedupKeepFirstAux (seen : List String) : List String → List String
  | [] => []
  | x :: xs =>
    if x ∈ seen then dedupKeepFirstAux seen xs
    else x :: dedupKeepFirstAux (seen ++ [x]) xs

/-- Deduplicate a list keeping first occurrences (a Python `set` built
from the list, enumerated in a fixed order; every property proved below
is insensitive to enumeration order). -/
def dedupF (l : List String) : List String := dedupKeepFirstAux [] l

/-- Embeds `ConfigManager.find_providers_for_model`: the names (dict key order,
first insertion) whose model list — the last record with that name —
contains the model. -/
def find_providers_for_model (c : Config) (mname : String) : List String :=
  (dedupF ((get_providers c).map (fun p => p.name))).filter
    (fun n =>
      match lastNamed (get_providers c) n with
      | some p => mname ∈ p.models
      | none => false)

/-- The `final_value` computation of `cli.change_router`: an explicit
`provider,model` pair is validated against the catalog; a bare model
name is auto-resolved only when exactly one provider carries it. -/
def resolveAssignment (c : Config) (mv : String) : Except Err String :=
  if hasComma mv then
    let pr := splitFirstComma mv
    let pn := pyStrip pr.1
    let mn := pyStrip pr.2
    if validate_provider_model c pn mn then .ok (pn ++ "," ++ mn)
    else .error .modelNotInProvider
  else
    let mn := pyStrip mv
    match find_providers_for_model c mn with
    | [] => .error .modelNotFound
    | [pn] => .ok (pn ++ "," ++ mn)
    | _ => .error .ambiguousModel

/-- Embeds `cli.change_router` (the document side; the `ccr stop` process call
is an external side effect with no influence on the document). -/
def change_router (c : Config) (rt mv : String) :
    Except Err Config × List Config :=
  if rt ∉ validTypes then (.error .invalidRouterType, [])
  else
    match resolveAssignment c mv with
    | .error e => (.error e, [])
    | .ok fv =>
      let r := get_router_config c
      let (c', w) := update_router_config c (setKey r rt (.str fv))
      (.ok c', w)

/-- Embeds `cli.delete_router` (auto-confirmed): un-setting a router type.  A
router type not present is reported and nothing is written; deleting
`longContext` also pops `longContextThreshold` when it is present. -/
def delete_router (c : Config) (rt : String) :
    Except Err Config × List Config :=
  if rt ∉ deletableTypes then (.error .invalidRouterType, [])
  else
    let r := get_router_config c
    if (getKey r rt).isNone then (.ok c, [])
    else
      let r1 :=
        if rt = "longContext" ∧ (getKey r "longContextThreshold").isSome
        then popKey r "longContextThreshold"
        else r
      let r2 := popKey r1 rt
      let (c', w) := update_router_config c r2
      (.ok c', w)

/-- Embeds `cli.set_long_context_threshold`: refuse when `longContext` is not
set to a truthy value (Python `if not long_context`), else store the
integer under `longContextThreshold`. -/
def set_long_context_threshold (c : Config) (t : Int) :
    Except Err Config × List Config :=
  let r := get_router_config c
  let lc := getKey r "longContext"
  if !((lc.map truthy).getD false) then (.error .preconditionFailed, [])
  else
    let (c', w) := update_router_config c (setKey r "longContextThreshold" (.int t))
    (.ok c', w)

/-- The test `long_context and (long_context.endswith("," + m) or
long_context == m)` of `cli.delete_model`: short-circuits on a falsy
value; calling `.endswith` on a stored integer raises (uncaught). -/
def routerEndsLike (v : RVal) (m : String) : Except Err Bool :=
  if truthy v then
    match v with
    | .str s => .ok (endsWithStr s ("," ++ m) || s = m)
    | .int _ => .error .typeCrash
  else .ok false

/-- Embeds `cli.delete_model` (auto-confirmed): record whether the model is the
`longContext` one and whether the threshold is set, delete the model
through the manager, then cascade-remove `longContextThreshold` when
both held. -/
def delete_model_cli (c : Config) (mname : String) :
    Except Err Config × List Config :=
  let r := get_router_config c
  let lc := (getKey r "longContext").getD (.str "")
  let hasT := (getKey r "longContextThreshold").isSome
  match routerEndsLike lc mname with
  | .error e => (.error e, [])
  | .ok isLC =>
    match delete_model c mname with
    | (.error e, w) => (.error e, w)
    | (.ok c1, w1) =>
      if isLC && hasT then
        let r1 := get_router_config c1
        let (c2, w2) := update_router_config c1 (popKey r1 "longContextThreshold")
        (.ok c2, w1 ++ w2)
      else (.ok c1, w1)

/-! ### Endpoint probing (`config_manager.validate_provider_endpoint`)

The two HTTP GETs are external inputs: a `ProbeOutcome` is the status
code the probe would observe, or a transport failure.  The second
outcome is consulted only on the paths where the Python issues the
second request. -/

/-- Result of one HTTP probe: a status code, or a `RequestException`. -/
inductive ProbeOutcome where
  | status (n : Nat)
  | netErr
deriving DecidableEq

/-- Python `base_url.endswith('/v1')` (after trimming). -/
def endsWithV1 (s : String) : Bool := endsWithStr s "/v1"

/-- Python `base_url[:-3]`: chop the trailing `/v1`. -/
def chopV1 (s : String) : String := String.mk (s.data.take (s.data.length - 3))

/-- The second probe of `validate_provider_endpoint` (the `no_v1_url`
request): canonicalize without `/v1` on 2xx or on any 4xx, otherwise
fall through to the trimmed original. -/
def secondProbe (b : String) (r2 : ProbeOutcome) : String :=
  match r2 with
  | .status n =>
    if 200 ≤ n ∧ n < 300 then (if endsWithV1 b then chopV1 b else b)
    else if 400 ≤ n ∧ n < 500 then (if endsWithV1 b then chopV1 b else b)
    else b
  | .netErr => b

/-- Embeds `ConfigManager.validate_provider_endpoint`: trim trailing slashes,
probe the `/v1` candidate, then (on 404 or network failure only) the
candidate without `/v1`. -/
def validate_provider_endpoint (raw : String) (r1 r2 : ProbeOutcome) :
    String :=
  let b := rstripSlashes raw
  match r1 with
  | .status n =>
    if 200 ≤ n ∧ n < 300 then (if endsWithV1 b then b else b ++ "/v1")
    else if n = 404 then secondProbe b r2
    else if 400 ≤ n ∧ n < 500 then (if endsWithV1 b then b else b ++ "/v1")
    else b
  | .netErr => secondProbe b r2

/-! ### Model-catalog fetching (`cli.fetch_models_from_endpoint`)

The JSON body of a 200 response is inspected with Python `in` and
subscription, whose behaviour depends on the runtime type of the body;
both are embedded faithfully, including the `TypeError` cases that the
Python leaves uncaught. -/

/-- A JSON value. -/
inductive Json where
  | null
  | bool (b : Bool)
  | num (n : Int)
  | str (s : String)
  | arr (elems : List Json)
  | obj (fields : List (String × Json))

/-- Python `==` between a JSON value and a string: only equal strings
compare equal. -/
def jStrEq (j : Json) (s : String) : Bool :=
  match j with
  | .str t => t = s
  | _ => false

/-- Substring test on character lists (Python `in` on strings). -/
def chSub (pat : List Char) : List Char → Bool
  | [] => pat.isEmpty
  | c :: cs => pat.isPrefixOf (c :: cs) || chSub pat cs

/-- Python `s in j`: key membership on a dict, element membership on a
list, substring on a string; a `TypeError` on anything else. -/
def pyIn (s : String) (j : Json) : Except Err Bool :=
  match j with
  | .obj kvs => .ok (kvs.any (fun kv => kv.1 = s))
  | .arr xs => .ok (xs.any (fun x => jStrEq x s))
  | .str t => .ok (chSub s.data t.data)
  | _ => .error .typeCrash

/-- Python `j[s]`: dict lookup (the branch is always guarded by `in`, so
a missing key cannot occur, but it is still modelled as a crash); a
`TypeError` on any non-dict. -/
def pyIndex (j : Json) (s : String) : Except Err Json :=
  match j with
  | .obj kvs =>
    match getKey kvs s with
    | some v => .ok v
    | none => .error .typeCrash
  | _ => .error .typeCrash

/-- Python iteration `for item in j`: a list yields its elements, a
string its characters, a dict its keys; a `TypeError` otherwise. -/
def pyIter (j : Json) : Except Err (List Json) :=
  match j with
  | .arr xs => .ok xs
  | .str t => .ok (t.data.map (fun ch => .str (String.mk [ch])))
  | .obj kvs => .ok (kvs.map (fun kv => .str kv.1))
  | _ => .error .typeCrash

/-- The comprehension `[item["id"] for item in ... if "id" in item]`,
with the first raised error propagated. -/
def idComp : List Json → Except Err (List Json)
  | [] => .ok []
  | item :: rest =>
    match pyIn "id" item with
    | .error e => .error e
    | .ok b =>
      if b then
        match pyIndex item "id" with
        | .error e => .error e
        | .ok v =>
          match idComp rest with
          | .error e => .error e
          | .ok tail => .ok (v :: tail)
      else idComp rest

/-- The 200-response handler of `fetch_models_from_endpoint`: the
`data` shape, the `models` shape, a bare list, or the empty-list
fallback with a warning; every raised error propagates. -/
def handle200 (data : Json) : Except Err Json :=
  match pyIn "data" data with
  | .error e => .error e
  | .ok b1 =>
    if b1 then
      match pyIndex data "data" with
      | .error e => .error e
      | .ok d =>
        match pyIter d with
        | .error e => .error e
        | .ok items =>
          match idComp items with
          | .error e => .error e
          | .ok ids => .ok (.arr ids)
    else
      match pyIn "models" data with
      | .error e => .error e
      | .ok b2 =>
        if b2 then pyIndex data "models"
        else
          match data with
          | .arr _ => .ok data
          | _ => .ok (.arr [])

/-- Outcome of requesting one candidate URL. -/
inductive FetchOutcome where
  | status (n : Nat) (body : Json)
  | netErr

/-- Embeds `cli.fetch_models_from_endpoint` over the candidate responses, in
order: a 200 is handled by shape; 401, 404, any other status and any
transport failure move on to the next candidate; exhaustion yields an
empty list. -/
def fetch_models_from_endpoint : List FetchOutcome → Except Err Json
  | [] => .ok (.arr [])
  | r :: rest =>
    match r with
    | .status n body =>
      if n = 200 then handle200 body
      else fetch_models_from_endpoint rest
    | .netErr => fetch_models_from_endpoint rest

/-! ### The per-provider body of `cli.update_models`

The fetched catalog is an input (the result of the HTTP fetch).  Python
set difference/intersection over `current_models` and `fetched_models`
are embedded over first-occurrence-deduplicated lists. -/

/-- The protected set of `update_models`: the routed model names,
collected from every Router entry other than `longContextThreshold`
whose value is a string containing a comma, as the stripped suffix after
the last comma. -/
def used_models (r : List (String × RVal)) : List String :=
  r.foldl
    (fun acc kv =>
      match kv with
      | (k, .str v) =>
        if k ≠ "longContextThreshold" ∧ hasComma v then
          acc ++ [pyStrip (afterLastComma v)]
        else acc
      | _ => acc) []

/-- The aggregate report of an update: (provider, model) pairs added,
removed and retained. -/
structure UpdateReport where
  added : List (String × String)
  removed : List (String × String)
  retained : List (String × String)
deriving DecidableEq

/-- The `models_to_add` loop: add each model through the manager,
recording successes; a per-model error is reported and skipped. -/
def addStep (pname : String) (c : Config) (added : List (String × String)) :
    List String → Config × List (String × String)
  | [] => (c, added)
  | m :: rest =>
    match (add_model_to_provider c pname m).1 with
    | .ok c' => addStep pname c' (added ++ [(pname, m)]) rest
    | .error _ => addStep pname c added rest

/-- The `models_to_remove` loop: delete a model only when it is not in
the protected set, recording it as removed; protected models are
recorded as retained; a per-model error is reported and skipped. -/
def removalStep (used : List String) (pname : String) (c : Config)
    (rem ret : List (String × String)) :
    List String → Config × List (String × String) × List (String × String)
  | [] => (c, rem, ret)
  | m :: rest =>
    if m ∉ used then
      match (delete_model c m).1 with
      | .ok c' => removalStep used pname c' (rem ++ [(pname, m)]) ret rest
      | .error _ => removalStep used pname c rem ret rest
    else removalStep used pname c rem (ret ++ [(pname, m)]) rest

/-- One iteration of the provider loop of `cli.update_models`, for the
provider record `p` as loaded and the fetched catalog `fetched`: an
empty fetch retains everything (no write); otherwise add the new
models, compute the protected set from the current Router section, then
remove the stale unprotected models and retain the rest. -/
def update_one_provider (c : Config) (p : Provider) (fetched : List String) :
    Config × UpdateReport :=
  let current := dedupF p.models
  let fetchedS := dedupF fetched
  if fetchedS.isEmpty then
    (c, ⟨[], [], current.map (fun m => (p.name, m))⟩)
  else
    let toAdd := fetchedS.filter (fun m => m ∉ current)
    let toRemove := current.filter (fun m => m ∉ fetchedS)
    let toKeep := current.filter (fun m => m ∈ fetchedS)
    let st1 := addStep p.name c [] toAdd
    let used := used_models (get_router_config st1.1)
    let st2 := removalStep used p.name st1.1 [] [] toRemove
    (st2.1, ⟨st1.2, st2.2.1, st2.2.2 ++ toKeep.map (fun m => (p.name, m))⟩)

/-- The model list of the first provider carrying a name (the record
`add_model_to_provider` acts on). -/
def modelsOfFirst (c : Config) (pname : String) : List String :=
  match (get_providers c).find? (fun q => q.name = pname) with
  | some q => q.models
  | none => []

/-! ### Lemmas about the Router-section object helpers -/

theorem getKey_append {β : Type} (r s : List (String × β)) (k : String) :
    getKey (r ++ s) k = if (getKey r k).isSome then getKey r k else getKey s k := by
  induction r with
  | nil => simp [getKey]
  | cons kv t ih =>
    by_cases h : kv.1 = k
    · simp [getKey, h]
    · simp [getKey, h, ih]

theorem getKey_map_replace_self (r : List (String × RVal)) (k : String)
    (v : RVal) :
    getKey (r.map (fun kv => if kv.1 = k then (k, v) else kv)) k
      = (getKey r k).map (fun _ => v) := by
  induction r with
  | nil => simp [getKey]
  | cons kv t ih =>
    by_cases h : kv.1 = k
    · simp [getKey, h]
    · simp [getKey, h, ih]

theorem getKey_map_replace_ne (r : List (String × RVal)) (k k' : String)
    (v : RVal) (h : k' ≠ k) :
    getKey (r.map (fun kv => if kv.1 = k then (k, v) else kv)) k'
      = getKey r k' := by
  induction r with
  | nil => simp [getKey]
  | cons kv t ih =>
    by_cases hk : kv.1 = k
    · simp [getKey, hk, Ne.symm h, ih]
    · simp only [List.map_cons, if_neg hk]
      by_cases hk' : kv.1 = k'
      · simp [getKey, hk']
      · simp [getKey, hk', ih]

theorem any_key_eq_isSome (r : List (String × RVal)) (k : String) :
    (r.any (fun kv => kv.1 = k)) = (getKey r k).isSome := by
  induction r with
  | nil => simp [getKey]
  | cons kv t ih =>
    by_cases h : kv.1 = k
    · simp [getKey, h]
    · simp [getKey, h, ih]

theorem getKey_setKey_self (r : List (String × RVal)) (k : String) (v : RVal) :
    getKey (setKey r k v) k = some v := by
  unfold setKey
  by_cases h : ((r.any fun kv => decide (kv.1 = k)) = true)
  · rw [if_pos h, getKey_map_replace_self]
    have := any_key_eq_isSome r k
    rw [this] at h
    obtain ⟨w, hw⟩ := Option.isSome_iff_exists.mp h
    simp [hw]
  · rw [if_neg h, getKey_append]
    have := any_key_eq_isSome r k
    rw [this] at h
    simp only [Bool.not_eq_true] at h
    simp [h, getKey]

theorem getKey_setKey_ne (r : List (String × RVal)) (k k' : String) (v : RVal)
    (h : k' ≠ k) : getKey (setKey r k v) k' = getKey r k' := by
  unfold setKey
  by_cases hc : ((r.any fun kv => decide (kv.1 = k)) = true)
  · rw [if_pos hc, getKey_map_replace_ne r k k' v h]
  · rw [if_neg hc, getKey_append]
    cases hgk : getKey r k' with
    | some w => simp [hgk]
    | none => simp [hgk, getKey, Ne.symm h]

theorem getKey_popKey_self (r : List (String × RVal)) (k : String) :
    getKey (popKey r k) k = none := by
  induction r with
  | nil => rfl
  | cons kv t ih =>
    by_cases h : kv.1 = k
    · simpa [popKey, List.filter_cons, h] using ih
    · simpa [popKey, List.filter_cons, h, getKey] using ih

theorem getKey_popKey_ne (r : List (String × RVal)) (k k' : String)
    (h : k' ≠ k) : getKey (popKey r k) k' = getKey r k' := by
  induction r with
  | nil => rfl
  | cons kv t ih =>
    by_cases hk : kv.1 = k
    · have hne : kv.1 ≠ k' := by rw [hk]; exact Ne.symm h
      simpa [popKey, List.filter_cons, hk, getKey, hne, Ne.symm h] using ih
    · by_cases hk' : kv.1 = k'
      · simp [popKey, List.filter_cons, hk, getKey, hk', h]
      · simpa [popKey, List.filter_cons, hk, getKey, hk'] using ih

/-! ### Concrete documents used as witnesses and counterexamples -/

/-- A one-provider document (provider `p`, base URL `u`, no models). -/
def docOneProv : Config := ⟨none, some [⟨"p", "u", none, []⟩]⟩

/-- A one-provider document whose provider already has model `m`. -/
def docHasM : Config := ⟨none, some [⟨"p", "u", none, ["m"]⟩]⟩

/-! ### Claim C10 -/

/-- C10: on every valid document lacking the `Router` or the
`Providers` top-level key, the missing section is treated exactly as an
empty one: a missing `Router` reads as the empty mapping, un-setting a
router type is a no-op success and setting the threshold fails only
with its ordinary precondition error; a missing `Providers` lists as
the empty sequence, `addProvider` succeeds by creating the `Providers`
sequence, and the remaining mutations fail only with their ordinary
provider/model-not-found errors; the absence of either section is never
itself an error. -/
theorem C10_missing_sections_harmless (c : Config) :
    (c.router = none →
      get_router_config c = [] ∧
      (∀ rt ∈ deletableTypes, delete_router c rt = (.ok c, [])) ∧
      (∀ t : Int,
        set_long_context_threshold c t = (.error .preconditionFailed, []))) ∧
    (c.providers = none →
      get_providers c = [] ∧
      (∀ p : Provider,
        add_provider c p = (.ok { c with providers := some [p] },
          [{ c with providers := some [p] }])) ∧
      (∀ pn mn : String,
        add_model_to_provider c pn mn = (.error .providerNotFound, [])) ∧
      (∀ pn : String,
        delete_provider c pn = (.error .providerNotFound, [])) ∧
      (∀ mn : String,
        delete_model c mn = (.error .modelNotFound, []))) ∧
    (∀ r, (update_router_config c r).1 = { c with router := some r }) := by
  refine ⟨?_, ?_, fun r => rfl⟩
  · intro h
    have hr : get_router_config c = [] := by
      unfold get_router_config
      rw [h]
      rfl
    refine ⟨hr, ?_, ?_⟩
    · intro rt hrt
      unfold delete_router
      rw [if_neg (not_not_intro hrt)]
      dsimp only
      rw [hr]
      rfl
    · intro t
      unfold set_long_context_threshold
      rw [hr]
      rfl
  · intro h
    have hp : get_providers c = [] := by
      unfold get_providers
      rw [h]
      rfl
    refine ⟨hp, ?_, ?_, ?_, ?_⟩
    · intro p
      unfold add_provider
      rw [hp]
      rfl
    · intro pn mn
      unfold add_model_to_provider
      rw [hp]
      rfl
    · intro pn
      unfold delete_provider
      dsimp only
      rw [hp]
      rfl
    · intro mn
      unfold delete_model
      dsimp only
      rw [hp]
      rfl

/-- A document with a `Router` section but no `Providers` key. -/
def docRouterOnly : Config := ⟨some [("default", .str "p,m")], none⟩

/-- A document with a `Providers` sequence but no `Router` key. -/
def docProvOnly : Config := ⟨none, some [⟨"p", "u", none, []⟩]⟩

/-- Witness for C10 at concrete documents: with `Providers` absent (but
`Router` present), listing yields the empty sequence and `addProvider`
creates the sequence; with `Router` absent, reading yields the empty
mapping and un-setting a router type is a no-op success. -/
theorem C10_witness :
    get_providers docRouterOnly = [] ∧
    add_provider docRouterOnly ⟨"q", "w", none, []⟩
      = (.ok ⟨some [("default", .str "p,m")], some [⟨"q", "w", none, []⟩]⟩,
         [⟨some [("default", .str "p,m")], some [⟨"q", "w", none, []⟩]⟩]) ∧
    get_router_config docProvOnly = [] ∧
    delete_router docProvOnly "longContext" = (.ok docProvOnly, []) :=
  ⟨((C10_missing_sections_harmless docRouterOnly).2.1 rfl).1,
   ((C10_missing_sections_harmless docRouterOnly).2.1 rfl).2.1
     ⟨"q", "w", none, []⟩,
   ((C10_missing_sections_harmless docProvOnly).1 rfl).1,
   ((C10_missing_sections_harmless docProvOnly).1 rfl).2.1 "longContext"
     (by decide)⟩

/-! ### Claim C9 -/

/-- C9: setting `longContextThreshold` fails with the precondition
error, without writing, whenever `longContext` is not set (to a truthy
value); when it is set, the operation succeeds with a single write and
the stored router section maps `longContextThreshold` to the given
integer, which reads back as stored. -/
theorem C9_threshold_precondition (c : Config) (t : Int) :
    (((getKey (get_router_config c) "longContext").map truthy).getD false
        = false →
      set_long_context_threshold c t = (.error .preconditionFailed, [])) ∧
    (((getKey (get_router_config c) "longContext").map truthy).getD false
        = true →
      ∃ c', set_long_context_threshold c t = (.ok c', [c']) ∧
        getKey (get_router_config c') "longContextThreshold"
          = some (.int t)) := by
  constructor
  · intro h
    unfold set_long_context_threshold
    simp [h]
  · intro h
    unfold set_long_context_threshold
    simp only [h, Bool.not_true, Bool.false_eq_true, if_false]
    refine ⟨_, rfl, ?_⟩
    show getKey (get_router_config
      { c with router := some (setKey (get_router_config c)
          "longContextThreshold" (.int t)) }) "longContextThreshold"
        = some (.int t)
    simp only [get_router_config, Option.getD_some]
    exact getKey_setKey_self _ _ _

/-- Witness for C9 at a concrete document in which `longContext` is set:
the threshold write succeeds and reads back. -/
theorem C9_witness :
    (((getKey (get_router_config ⟨some [("longContext", .str "p1,m1")], none⟩)
        "longContext").map truthy).getD false = true) ∧
    (∃ c', set_long_context_threshold
        ⟨some [("longContext", .str "p1,m1")], none⟩ 1000 = (.ok c', [c']) ∧
      getKey (get_router_config c') "longContextThreshold"
        = some (.int 1000)) :=
  ⟨by decide,
   (C9_threshold_precondition ⟨some [("longContext", .str "p1,m1")], none⟩
     1000).2 (by decide)⟩

/-! ### Claim C3 -/

/-- C3 (amended): after trimming trailing slashes, if the first probe
fails (404 or network error) and the second probe yields a network error
or a status outside both the 2xx and the 4xx ranges, the original
(post-trim) URL is returned unchanged; but the second probe
canonicalizes without `/v1` on a 2xx or on ANY 4xx response — 404
included — so a URL ending in `/v1` whose two probes both return 404
comes back with its `/v1` stripped rather than unchanged. -/
theorem C3_resolve_base_url (raw : String) (r1 r2 : ProbeOutcome)
    (h1 : r1 = .status 404 ∨ r1 = .netErr) :
    ((r2 = .netErr ∨ ∃ n, r2 = .status n ∧ ¬(200 ≤ n ∧ n < 300) ∧
        ¬(400 ≤ n ∧ n < 500)) →
      validate_provider_endpoint raw r1 r2 = rstripSlashes raw) ∧
    (∀ n, r2 = .status n → 400 ≤ n → n < 500 →
      validate_provider_endpoint raw r1 r2 =
        (if endsWithV1 (rstripSlashes raw) then chopV1 (rstripSlashes raw)
         else rstripSlashes raw)) := by
  have hsecond : validate_provider_endpoint raw r1 r2
      = secondProbe (rstripSlashes raw) r2 := by
    rcases h1 with h | h <;> subst h <;>
      simp [validate_provider_endpoint]
  have hstat : ∀ (b : String) (n : Nat), secondProbe b (.status n)
      = if 200 ≤ n ∧ n < 300 then (if endsWithV1 b then chopV1 b else b)
        else if 400 ≤ n ∧ n < 500 then (if endsWithV1 b then chopV1 b else b)
        else b := fun b n => rfl
  constructor
  · intro h2
    rw [hsecond]
    rcases h2 with h | ⟨n, hn, hlo, hhi⟩
    · subst h; rfl
    · subst hn
      rw [hstat, if_neg hlo, if_neg hhi]
  · intro n hn hlo hhi
    subst hn
    rw [hsecond, hstat]
    have h2xx : ¬(200 ≤ n ∧ n < 300) := by omega
    rw [if_neg h2xx, if_pos ⟨hlo, hhi⟩]

/-- Witness for C3 at concrete inputs: a first-probe 404 followed by a
second-probe 500 returns the trimmed original URL. -/
theorem C3_witness :
    validate_provider_endpoint "http://x/v1" (.status 404) (.status 500)
      = rstripSlashes "http://x/v1" :=
  (C3_resolve_base_url "http://x/v1" (.status 404) (.status 500)
    (Or.inl rfl)).1 (Or.inr ⟨500, rfl, by omega, by omega⟩)

/-- Counterexample to C3 as stated: with both probes returning 404 on
the URL `http://x/v1` — for the claim, both probes "fail" — the function
returns `http://x`, not the original URL. -/
theorem C3_counterexample :
    validate_provider_endpoint "http://x/v1" (.status 404) (.status 404)
      = "http://x" ∧ ("http://x" : String) ≠ "http://x/v1" := by
  constructor
  · rfl
  · decide

/-! ### Claim C6 -/

/-- C6: `addProvider` fails with the duplicate-provider error whenever
any existing record shares the new record's name or base URL (either
collision alone suffices), and on success appends the new record at the
end, leaving the existing records and their order unchanged. -/
theorem C6_add_provider (c : Config) (p : Provider) :
    ((∃ q ∈ get_providers c,
        q.name = p.name ∨ q.api_base_url = p.api_base_url) →
      add_provider c p = (.error .duplicateProvider, [])) ∧
    ((∀ q ∈ get_providers c,
        q.name ≠ p.name ∧ q.api_base_url ≠ p.api_base_url) →
      add_provider c p =
        (.ok { c with providers := some (get_providers c ++ [p]) },
         [{ c with providers := some (get_providers c ++ [p]) }])) := by
  constructor
  · intro h
    unfold add_provider
    rw [if_pos]
    simp only [List.any_eq_true, decide_eq_true_eq]
    exact h
  · intro h
    unfold add_provider
    rw [if_neg]
    simp only [List.any_eq_true, decide_eq_true_eq, not_exists]
    intro q hq
    rcases hq with ⟨hmem, hn | hu⟩
    · exact (h q hmem).1 hn
    · exact (h q hmem).2 hu

/-- Witness for C6 at concrete documents: a name collision is rejected,
and a fresh provider is appended. -/
theorem C6_witness :
    add_provider docOneProv ⟨"p", "v", none, []⟩
      = (.error .duplicateProvider, []) ∧
    add_provider docOneProv ⟨"q", "w", none, []⟩
      = (.ok ⟨none, some [⟨"p", "u", none, []⟩, ⟨"q", "w", none, []⟩]⟩,
         [⟨none, some [⟨"p", "u", none, []⟩, ⟨"q", "w", none, []⟩]⟩]) :=
  ⟨(C6_add_provider docOneProv ⟨"p", "v", none, []⟩).1
     ⟨⟨"p", "u", none, []⟩, by decide, by decide⟩,
   (C6_add_provider docOneProv ⟨"q", "w", none, []⟩).2 (by decide)⟩

/-! ### Claim C5 -/

/-- C5 (amended): every mutating ConfigStore operation raises its typed
error before any write occurs, leaving the stored document untouched
(empty write log); on success the full modified document is written
exactly once — except the idempotent duplicate-model add, which
succeeds without writing, the stored document already equal to the
result. -/
theorem C5_atomic_writes (c : Config) :
    (∀ p, (∃ e, add_provider c p = (.error e, [])) ∨
      (∃ c', add_provider c p = (.ok c', [c']))) ∧
    (∀ pn, (∃ e, delete_provider c pn = (.error e, [])) ∨
      (∃ c', delete_provider c pn = (.ok c', [c']))) ∧
    (∀ mn, (∃ e, delete_model c mn = (.error e, [])) ∨
      (∃ c', delete_model c mn = (.ok c', [c']))) ∧
    (∀ r, (update_router_config c r).2 = [(update_router_config c r).1]) ∧
    (∀ pn mn, (∃ e, add_model_to_provider c pn mn = (.error e, [])) ∨
      add_model_to_provider c pn mn = (.ok c, []) ∨
      (∃ c', add_model_to_provider c pn mn = (.ok c', [c']))) := by
  refine ⟨?_, ?_, ?_, fun r => rfl, ?_⟩
  · intro p
    unfold add_provider
    split
    · exact Or.inl ⟨_, rfl⟩
    · exact Or.inr ⟨_, rfl⟩
  · intro pn
    unfold delete_provider
    dsimp only
    split
    · exact Or.inl ⟨_, rfl⟩
    · exact Or.inr ⟨_, rfl⟩
  · intro mn
    unfold delete_model
    dsimp only
    split
    · exact Or.inr ⟨_, rfl⟩
    · exact Or.inl ⟨_, rfl⟩
  · intro pn mn
    unfold add_model_to_provider
    rcases haml : addModelList (get_providers c) pn mn with _ | ⟨ps', w⟩
    · exact Or.inl ⟨_, rfl⟩
    · cases w
      · exact Or.inr (Or.inl rfl)
      · exact Or.inr (Or.inr ⟨_, rfl⟩)

/-- Counterexample to C5 as stated: adding a model that is already
present succeeds but performs no write at all — the claimed
"written exactly once on success" fails on the idempotent no-op. -/
theorem C5_counterexample :
    (add_model_to_provider docHasM "p" "m").1 = .ok docHasM ∧
    (add_model_to_provider docHasM "p" "m").2 = [] := by
  constructor <;> rfl

/-! ### Store operations leave the Router section alone -/

theorem add_model_to_provider_router (c : Config) (pn mn : String)
    (c' : Config) (h : (add_model_to_provider c pn mn).1 = .ok c') :
    c'.router = c.router := by
  unfold add_model_to_provider at h
  rcases haml : addModelList (get_providers c) pn mn with _ | ⟨ps', w⟩ <;>
    rw [haml] at h
  · simp at h
  · cases w
    · simp only [Except.ok.injEq] at h
      rw [← h]
    · simp only [Except.ok.injEq] at h
      rw [← h]

theorem delete_model_router (c : Config) (mn : String)
    (c' : Config) (h : (delete_model c mn).1 = .ok c') :
    c'.router = c.router := by
  unfold delete_model at h
  dsimp only at h
  split at h
  · simp only [Except.ok.injEq] at h
    rw [← h]
  · simp at h

/-- Every successful `change_router` only rewrites the requested router
key to the resolved assignment string, leaving the rest of the document
in place. -/
theorem change_router_ok (c : Config) (rt mv : String) (c' : Config)
    (h : (change_router c rt mv).1 = .ok c') :
    ∃ fv, c' = { c with
      router := some (setKey (get_router_config c) rt (.str fv)) } := by
  unfold change_router at h
  split at h
  · simp at h
  · rcases hf : resolveAssignment c mv with e | fv <;> rw [hf] at h
    · simp at h
    · refine ⟨fv, ?_⟩
      simp only [update_router_config, Except.ok.injEq] at h
      rw [← h]

/-! ### Claim C2 -/

/-- C2 (amended): un-setting the `longContext` router assignment removes
the `longContextThreshold` key (when the threshold is set) along with
the assignment; but overwriting the `longContext` assignment with a new
value through the change operation leaves `longContextThreshold` in the
router section untouched. -/
theorem C2_longcontext_cascade :
    (∀ (c : Config) (v t : RVal),
      getKey (get_router_config c) "longContext" = some v →
      getKey (get_router_config c) "longContextThreshold" = some t →
      ∃ c', delete_router c "longContext" = (.ok c', [c']) ∧
        getKey (get_router_config c') "longContextThreshold" = none ∧
        getKey (get_router_config c') "longContext" = none) ∧
    (∀ (c : Config) (mv : String) (c' : Config),
      (change_router c "longContext" mv).1 = .ok c' →
      getKey (get_router_config c') "longContextThreshold"
        = getKey (get_router_config c) "longContextThreshold") := by
  constructor
  · intro c v t hv ht
    unfold delete_router
    rw [if_neg (by decide)]
    dsimp only
    rw [if_neg (by simp [hv])]
    rw [if_pos ⟨rfl, by simp [ht]⟩]
    refine ⟨_, rfl, ?_, ?_⟩
    · show getKey (get_router_config { c with router := some (popKey
        (popKey (get_router_config c) "longContextThreshold") "longContext") })
          "longContextThreshold" = none
      simp only [get_router_config, Option.getD_some]
      rw [getKey_popKey_ne _ _ _ (by decide), getKey_popKey_self]
    · show getKey (get_router_config { c with router := some (popKey
        (popKey (get_router_config c) "longContextThreshold") "longContext") })
          "longContext" = none
      simp only [get_router_config, Option.getD_some]
      rw [getKey_popKey_self]
  · intro c mv c' h
    obtain ⟨fv, hc'⟩ := change_router_ok c "longContext" mv c' h
    subst hc'
    simp only [get_router_config, Option.getD_some]
    exact getKey_setKey_ne _ _ _ _ (by decide)

/-- A document with both `longContext` and `longContextThreshold` set,
over a one-provider catalog `p1 : [m1, m2]`. -/
def docLCT : Config :=
  ⟨some [("longContext", .str "p1,m1"), ("longContextThreshold", .int 1000)],
   some [⟨"p1", "u", none, ["m1", "m2"]⟩]⟩

/-- Witness for C2 at a concrete document: deleting `longContext`
removes the assignment and the threshold. -/
theorem C2_witness :
    ∃ c', delete_router docLCT "longContext" = (.ok c', [c']) ∧
      getKey (get_router_config c') "longContextThreshold" = none ∧
      getKey (get_router_config c') "longContext" = none :=
  (C2_longcontext_cascade).1 docLCT (.str "p1,m1") (.int 1000) rfl rfl

/-- The document of `docLCT` after `longContext` is overwritten with
`p1,m2`: the threshold key survives. -/
def docLCT2 : Config :=
  ⟨some [("longContext", .str "p1,m2"), ("longContextThreshold", .int 1000)],
   some [⟨"p1", "u", none, ["m1", "m2"]⟩]⟩

/-- Counterexample to C2 as stated: overwriting the `longContext`
assignment (here with `p1,m2`, replacing `p1,m1`) leaves
`longContextThreshold` in the router section, while the claim demands
its removal. -/
theorem C2_counterexample :
    (change_router docLCT "longContext" "p1,m2").1 = .ok docLCT2 ∧
    getKey (get_router_config docLCT2) "longContextThreshold"
      = some (.int 1000) := by
  constructor <;> rfl

/-! ### Claim C4 -/

/-- C4 (amended): a successful model deletion removes the
`longContextThreshold` key exactly when the threshold was set and the
`longContext` assignment string ends with a comma followed by the
deleted model name, or equals it outright (the Python `endswith`
test — not the claimed suffix-after-last-comma parse, see the
counterexample); in every other case the router section is untouched. -/
theorem C4_delete_model_cascade (c : Config) (m s : String) (c' : Config)
    (hs : (getKey (get_router_config c) "longContext").getD (.str "")
      = .str s)
    (h : (delete_model_cli c m).1 = .ok c') :
    get_router_config c' =
      if ((getKey (get_router_config c) "longContextThreshold").isSome
          ∧ s ≠ "" ∧ (endsWithStr s ("," ++ m) = true ∨ s = m))
      then popKey (get_router_config c) "longContextThreshold"
      else get_router_config c := by
  unfold delete_model_cli at h
  dsimp only at h
  rw [hs] at h
  by_cases hse : s = ""
  · subst hse
    rw [show routerEndsLike (.str "") m = .ok false from rfl] at h
    rcases hdm : delete_model c m with ⟨res, w⟩
    rw [hdm] at h
    rcases res with e | c1
    · simp at h
    · simp only [Bool.false_and, Bool.false_eq_true, if_false,
        Except.ok.injEq] at h
      subst h
      rw [if_neg (by simp)]
      have := delete_model_router c m c1 (by rw [hdm])
      simp only [get_router_config, this]
  · have hrel : routerEndsLike (.str s) m
        = .ok (endsWithStr s ("," ++ m) || s = m) := by
      unfold routerEndsLike
      rw [if_pos (by simpa [truthy] using hse)]
    rw [hrel] at h
    rcases hdm : delete_model c m with ⟨res, w⟩
    rw [hdm] at h
    rcases res with e | c1
    · simp at h
    · dsimp only at h
      have hr1 : c1.router = c.router :=
        delete_model_router c m c1 (by rw [hdm])
      by_cases hcond : ((endsWithStr s ("," ++ m) || decide (s = m))
          && (getKey (get_router_config c) "longContextThreshold").isSome)
            = true
      · rw [if_pos hcond] at h
        simp only [update_router_config, Except.ok.injEq] at h
        subst h
        rw [if_pos ?side]
        case side =>
          simp only [Bool.and_eq_true, Bool.or_eq_true,
            decide_eq_true_eq] at hcond
          exact ⟨hcond.2, hse, hcond.1⟩
        simp only [get_router_config, Option.getD_some]
        rw [hr1]
      · rw [if_neg hcond] at h
        simp only [Except.ok.injEq] at h
        subst h
        rw [if_neg ?negside]
        case negside =>
          simp only [Bool.and_eq_true, Bool.or_eq_true,
            decide_eq_true_eq] at hcond
          intro hp
          exact hcond ⟨Or.imp_left id hp.2.2, hp.1⟩
        simp only [get_router_config, hr1]

/-- The document of `docLCT` with a single model `m1`, used to witness
the delete-model cascade. -/
def docC4 : Config :=
  ⟨some [("longContext", .str "p1,m1"), ("longContextThreshold", .int 1000)],
   some [⟨"p1", "u", none, ["m1"]⟩]⟩

/-- The document of `docC4` after `m1` is deleted: the model and the
threshold are gone. -/
def docC4After : Config :=
  ⟨some [("longContext", .str "p1,m1")], some [⟨"p1", "u", none, []⟩]⟩

/-- Witness for C4 at a concrete document: deleting the referenced model
`m1` removes the threshold key. -/
theorem C4_witness :
    get_router_config docC4After =
      if ((getKey (get_router_config docC4) "longContextThreshold").isSome
          ∧ "p1,m1" ≠ "" ∧
          (endsWithStr "p1,m1" ("," ++ "m1") = true ∨ "p1,m1" = "m1"))
      then popKey (get_router_config docC4) "longContextThreshold"
      else get_router_config docC4 :=
  C4_delete_model_cascade docC4 "m1" "p1,m1" docC4After rfl rfl

/-- A document whose single model name `a,b` contains a comma, with
`longContext = p1,a,b` and the threshold set. -/
def docComma : Config :=
  ⟨some [("longContext", .str "p1,a,b"), ("longContextThreshold", .int 1000)],
   some [⟨"p1", "u", none, ["a,b"]⟩]⟩

/-- The document of `docComma` after `a,b` is deleted: the code removed
the threshold. -/
def docCommaAfter : Config :=
  ⟨some [("longContext", .str "p1,a,b")], some [⟨"p1", "u", none, []⟩]⟩

/-- Counterexample to C4 as stated: deleting model `a,b` under
`longContext = "p1,a,b"` removes `longContextThreshold`, although the
suffix of the assignment after its last comma is `b`, not `a,b` — the
claimed suffix-after-last-comma detection disagrees with the code's
`endswith` test on model names containing a comma. -/
theorem C4_counterexample :
    afterLastComma "p1,a,b" = "b" ∧ ("a,b" : String) ≠ "b" ∧
    (delete_model_cli docComma "a,b").1 = .ok docCommaAfter ∧
    getKey (get_router_config docCommaAfter) "longContextThreshold"
      = none := by
  refine ⟨rfl, by decide, rfl, rfl⟩

/-! ### Claim C7 -/

theorem any_key_eq_isSome_gen {β : Type} (r : List (String × β)) (k : String) :
    (r.any (fun kv => kv.1 = k)) = (getKey r k).isSome := by
  induction r with
  | nil => simp [getKey]
  | cons kv t ih =>
    by_cases h : kv.1 = k
    · simp [getKey, h]
    · simp [getKey, h, ih]

theorem idComp_objs (items : List (List (String × Json))) :
    idComp (items.map Json.obj)
      = .ok (items.filterMap (fun kvs => getKey kvs "id")) := by
  induction items with
  | nil => rfl
  | cons kvs t ih =>
    simp only [List.map_cons, List.filterMap_cons]
    unfold idComp
    dsimp only [pyIn]
    rw [any_key_eq_isSome_gen]
    cases hid : getKey kvs "id" with
    | none =>
      simp only [Option.isSome_none, Bool.false_eq_true, if_false, ih]
    | some v =>
      simp [pyIndex, hid, ih]

/-- C7 (amended): a 200 response body shaped `{data: [objects...]}`
yields the `id` fields of the elements carrying one; a body shaped
`{models: ...}` (without a `data` key) yields that value verbatim; a
bare JSON array yields itself provided it contains neither the string
`"data"` nor the string `"models"` as an element (otherwise the `in`
shape tests misfire, see the counterexample); and any other 200 body
that is a JSON object yields an empty list with a warning. -/
theorem C7_fetch_shapes :
    (∀ (rest : List FetchOutcome) (items : List (List (String × Json))),
      fetch_models_from_endpoint
          (.status 200 (.obj [("data", .arr (items.map Json.obj))]) :: rest)
        = .ok (.arr (items.filterMap (fun kvs => getKey kvs "id")))) ∧
    (∀ (rest : List FetchOutcome) (v : Json),
      fetch_models_from_endpoint (.status 200 (.obj [("models", v)]) :: rest)
        = .ok v) ∧
    (∀ (rest : List FetchOutcome) (xs : List Json),
      (xs.any (fun x => jStrEq x "data")) = false →
      (xs.any (fun x => jStrEq x "models")) = false →
      fetch_models_from_endpoint (.status 200 (.arr xs) :: rest)
        = .ok (.arr xs)) ∧
    (∀ (rest : List FetchOutcome) (kvs : List (String × Json)),
      (kvs.any (fun kv => kv.1 = "data")) = false →
      (kvs.any (fun kv => kv.1 = "models")) = false →
      fetch_models_from_endpoint (.status 200 (.obj kvs) :: rest)
        = .ok (.arr [])) := by
  refine ⟨?_, ?_, ?_, ?_⟩
  · intro rest items
    show handle200 (.obj [("data", .arr (items.map Json.obj))]) = _
    have hred : ∀ X : List Json, handle200 (.obj [("data", .arr X)])
        = match idComp X with
          | .error e => .error e
          | .ok ids => .ok (.arr ids) := fun X => rfl
    rw [hred, idComp_objs]
  · intro rest v
    show handle200 (.obj [("models", v)]) = _
    rfl
  · intro rest xs h1 h2
    show handle200 (.arr xs) = _
    unfold handle200
    dsimp only [pyIn]
    rw [h1, h2]
    rfl
  · intro rest kvs h1 h2
    show handle200 (.obj kvs) = _
    unfold handle200
    dsimp only [pyIn]
    rw [h1, h2]
    rfl

/-- Witness for C7 at a concrete response: a 200 body that is the bare
array `["x"]` is returned as-is. -/
theorem C7_witness :
    fetch_models_from_endpoint [.status 200 (.arr [.str "x"])]
      = .ok (.arr [.str "x"]) :=
  (C7_fetch_shapes).2.2.1 [] [.str "x"] rfl rfl

/-- Counterexample to C7 as stated: a 200 response whose JSON body is
the bare array `["data"]` makes the function fail with an uncaught
`TypeError` (Python `"data" in data` on a list is element membership,
and `data["data"]` then subscripts a list with a string) instead of
returning the array. -/
theorem C7_counterexample :
    fetch_models_from_endpoint [.status 200 (.arr [.str "data"])]
      = .error .typeCrash := rfl

/-! ### Claim C8 -/

/-- The model list of the first record with a given name in a raw
provider list. -/
def firstModels (ps : List Provider) (pn : String) : List String :=
  match ps.find? (fun q => q.name = pn) with
  | some q => q.models
  | none => []

theorem addModelList_none (ps : List Provider) (pn mn : String)
    (h : ∀ q ∈ ps, q.name ≠ pn) : addModelList ps pn mn = none := by
  induction ps with
  | nil => rfl
  | cons q t ih =>
    unfold addModelList
    rw [if_neg (h q (by simp))]
    rw [ih (fun q' hq' => h q' (by simp [hq']))]

theorem addModelList_false_eq (ps ps1 : List Provider) (pn mn : String)
    (h : addModelList ps pn mn = some (ps1, false)) : ps1 = ps := by
  induction ps generalizing ps1 with
  | nil => simp [addModelList] at h
  | cons q t ih =>
    unfold addModelList at h
    by_cases hq : q.name = pn
    · rw [if_pos hq] at h
      by_cases hm : mn ∈ q.models
      · rw [if_pos hm] at h
        simp only [Option.some.injEq, Prod.mk.injEq] at h
        exact h.1.symm
      · rw [if_neg hm] at h
        simp at h
    · rw [if_neg hq] at h
      rcases ht : addModelList t pn mn with _ | ⟨ps', w⟩ <;> rw [ht] at h
      · simp at h
      · simp only [Option.some.injEq, Prod.mk.injEq] at h
        rw [← h.1, ih ps' (by rw [ht, h.2])]

theorem addModelList_twice (ps : List Provider) (pn mn : String)
    (p : Provider) (hfind : ps.find? (fun q => q.name = pn) = some p)
    (hcount : p.models.count mn ≤ 1) :
    ∃ ps1 w, addModelList ps pn mn = some (ps1, w) ∧
      addModelList ps1 pn mn = some (ps1, false) ∧
      (firstModels ps1 pn).count mn = 1 := by
  induction ps with
  | nil => simp at hfind
  | cons q t ih =>
    by_cases hq : q.name = pn
    · rw [List.find?_cons_of_pos _ (by simpa using hq)] at hfind
      have hpq : p = q := by injection hfind with h; rw [h]
      subst hpq
      by_cases hm : mn ∈ p.models
      · refine ⟨p :: t, false, ?_, ?_, ?_⟩
        · unfold addModelList; rw [if_pos hq, if_pos hm]
        · unfold addModelList; rw [if_pos hq, if_pos hm]
        · unfold firstModels
          rw [List.find?_cons_of_pos _ (by simpa using hq)]
          dsimp only
          have hpos : 0 < p.models.count mn := List.count_pos_iff.mpr hm
          omega
      · refine ⟨{ p with models := p.models ++ [mn] } :: t, true, ?_, ?_, ?_⟩
        · unfold addModelList; rw [if_pos hq, if_neg hm]
        · unfold addModelList
          rw [if_pos hq, if_pos (by simp)]
        · unfold firstModels
          rw [List.find?_cons_of_pos _ (by simpa using hq)]
          have h0 : p.models.count mn = 0 :=
            List.count_eq_zero.mpr hm
          simp [List.count_append, h0]
    · rw [List.find?_cons_of_neg _ (by simpa using hq)] at hfind
      obtain ⟨ps1, w, h1, h2, h3⟩ := ih hfind
      refine ⟨q :: ps1, w, ?_, ?_, ?_⟩
      · unfold addModelList; rw [if_neg hq, h1]
      · unfold addModelList; rw [if_neg hq, h2]
      · unfold firstModels
        rw [List.find?_cons_of_neg _ (by simpa using hq)]
        exact h3

/-- C8 (amended): when no provider carries the requested name, the add
fails with the provider-not-found error; when the first provider with
that name holds at most one occurrence of the model (as every document
maintained by the tool does), adding the same model twice succeeds both
times, the second call changes nothing, and the provider's list is left
with exactly one occurrence.  (A hand-crafted document whose model list
already contains duplicates keeps them — see the counterexample.) -/
theorem C8_idempotent_add (c : Config) (pn mn : String) :
    ((∀ q ∈ get_providers c, q.name ≠ pn) →
      add_model_to_provider c pn mn = (.error .providerNotFound, [])) ∧
    (∀ p, (get_providers c).find? (fun q => q.name = pn) = some p →
      p.models.count mn ≤ 1 →
      ∃ c1, (add_model_to_provider c pn mn).1 = .ok c1 ∧
        (add_model_to_provider c1 pn mn).1 = .ok c1 ∧
        (modelsOfFirst c1 pn).count mn = 1) := by
  constructor
  · intro h
    unfold add_model_to_provider
    rw [addModelList_none _ _ _ h]
  · intro p hfind hcount
    obtain ⟨ps1, w, h1, h2, h3⟩ := addModelList_twice _ pn mn p hfind hcount
    cases w
    · have hps : ps1 = get_providers c := addModelList_false_eq _ _ _ _ h1
      refine ⟨c, ?_, ?_, ?_⟩
      · unfold add_model_to_provider; rw [h1]
      · unfold add_model_to_provider; rw [h1]
      · rw [hps] at h3
        unfold firstModels at h3
        unfold modelsOfFirst
        exact h3
    · refine ⟨{ c with providers := some ps1 }, ?_, ?_, ?_⟩
      · unfold add_model_to_provider; rw [h1]
      · have hgp : get_providers { c with providers := some ps1 } = ps1 := rfl
        unfold add_model_to_provider
        rw [hgp, h2]
      · have hm : modelsOfFirst { c with providers := some ps1 } pn
            = firstModels ps1 pn := rfl
        rw [hm]
        exact h3

/-- Witness for C8 at a concrete document: adding `m` twice to the
empty-catalog provider `p` leaves exactly one occurrence. -/
theorem C8_witness :
    ∃ c1, (add_model_to_provider docOneProv "p" "m").1 = .ok c1 ∧
      (add_model_to_provider c1 "p" "m").1 = .ok c1 ∧
      (modelsOfFirst c1 "p").count "m" = 1 :=
  (C8_idempotent_add docOneProv "p" "m").2 ⟨"p", "u", none, []⟩ rfl
    (by decide)

/-- A hand-crafted document whose provider already lists `m` twice. -/
def docMM : Config := ⟨none, some [⟨"p", "u", none, ["m", "m"]⟩]⟩

/-- Counterexample to C8 as stated: on a document whose provider already
lists the model twice, both adds succeed as no-ops and two occurrences
remain, not the claimed exactly one. -/
theorem C8_counterexample :
    (add_model_to_provider docMM "p" "m").1 = .ok docMM ∧
    (add_model_to_provider docMM "p" "m").2 = [] ∧
    (modelsOfFirst docMM "p").count "m" = 2 :=
  ⟨rfl, rfl, rfl⟩

/-! ### Infrastructure for claim C1: membership survives unrelated
additions and deletions, and the removal loop spares protected models -/

theorem mem_dedupKeepFirstAux (l : List String) :
    ∀ (seen : List String) (m : String),
      m ∈ dedupKeepFirstAux seen l ↔ (m ∈ l ∧ m ∉ seen) := by
  induction l with
  | nil => intro seen m; simp [dedupKeepFirstAux]
  | cons x xs ih =>
    intro seen m
    unfold dedupKeepFirstAux
    by_cases hx : x ∈ seen
    · rw [if_pos hx, ih]
      constructor
      · rintro ⟨h1, h2⟩
        exact ⟨List.mem_cons_of_mem _ h1, h2⟩
      · rintro ⟨h1, h2⟩
        rcases List.mem_cons.mp h1 with h | h
        · exact absurd (h ▸ hx) h2
        · exact ⟨h, h2⟩
    · rw [if_neg hx]
      simp only [List.mem_cons, ih]
      constructor
      · rintro (h | ⟨h1, h2⟩)
        · subst h; exact ⟨Or.inl rfl, hx⟩
        · refine ⟨Or.inr h1, fun hc => h2 ?_⟩
          simp [hc]
      · rintro ⟨h | h, h2⟩
        · exact Or.inl h
        · by_cases hmx : m = x
          · exact Or.inl hmx
          · right
            refine ⟨h, fun hc => ?_⟩
            rcases List.mem_append.mp hc with hc | hc
            · exact h2 hc
            · simp only [List.mem_singleton] at hc
              exact hmx hc

theorem mem_dedupF (l : List String) (m : String) :
    m ∈ dedupF l ↔ m ∈ l := by
  unfold dedupF
  rw [mem_dedupKeepFirstAux]
  simp

theorem modelsOfFirst_of_find (c : Config) (pn : String) (p : Provider)
    (h : (get_providers c).find? (fun q => q.name = pn) = some p) :
    modelsOfFirst c pn = p.models := by
  unfold modelsOfFirst
  rw [h]

theorem removeFirst_mem_of (l : List String) (m mr : String)
    (hne : m ≠ mr) (hm : m ∈ l) : m ∈ removeFirst l mr := by
  induction l with
  | nil => simp at hm
  | cons x xs ih =>
    unfold removeFirst
    by_cases hx : x = mr
    · rw [if_pos hx]
      rcases List.mem_cons.mp hm with h | h
      · exact absurd (h.trans hx) hne
      · exact h
    · rw [if_neg hx]
      rcases List.mem_cons.mp hm with h | h
      · exact h ▸ List.mem_cons_self x _
      · exact List.mem_cons_of_mem _ (ih h)

theorem firstModels_addModelList (ps : List Provider) (pnA mnA : String)
    (ps' : List Provider) (w : Bool)
    (h : addModelList ps pnA mnA = some (ps', w)) (pn m : String)
    (hm : m ∈ firstModels ps pn) : m ∈ firstModels ps' pn := by
  induction ps generalizing ps' with
  | nil => simp [addModelList] at h
  | cons q t ih =>
    unfold addModelList at h
    by_cases hq : q.name = pnA
    · rw [if_pos hq] at h
      by_cases hmem : mnA ∈ q.models
      · rw [if_pos hmem] at h
        simp only [Option.some.injEq, Prod.mk.injEq] at h
        rw [← h.1]
        exact hm
      · rw [if_neg hmem] at h
        simp only [Option.some.injEq, Prod.mk.injEq] at h
        rw [← h.1]
        by_cases hqn : q.name = pn
        · unfold firstModels at hm ⊢
          rw [List.find?_cons_of_pos _ (by simpa using hqn)] at hm
          rw [List.find?_cons_of_pos _ (by simpa using hqn)]
          dsimp only at hm ⊢
          exact List.mem_append_left _ hm
        · unfold firstModels at hm ⊢
          rw [List.find?_cons_of_neg _ (by simpa using hqn)] at hm
          rw [List.find?_cons_of_neg _ (by simpa using hqn)]
          exact hm
    · rw [if_neg hq] at h
      rcases ht : addModelList t pnA mnA with _ | ⟨ps'', w'⟩ <;> rw [ht] at h
      · simp at h
      · simp only [Option.some.injEq, Prod.mk.injEq] at h
        rw [← h.1]
        by_cases hqn : q.name = pn
        · unfold firstModels at hm ⊢
          rw [List.find?_cons_of_pos _ (by simpa using hqn)] at hm
          rw [List.find?_cons_of_pos _ (by simpa using hqn)]
          exact hm
        · unfold firstModels at hm ⊢
          rw [List.find?_cons_of_neg _ (by simpa using hqn)] at hm
          rw [List.find?_cons_of_neg _ (by simpa using hqn)]
          exact ih ps'' (by rw [ht, h.2]) hm

theorem add_model_to_provider_mem (c : Config) (pnA mnA : String)
    (c' : Config) (h : (add_model_to_provider c pnA mnA).1 = .ok c')
    (pn m : String) (hm : m ∈ modelsOfFirst c pn) :
    m ∈ modelsOfFirst c' pn := by
  unfold add_model_to_provider at h
  rcases haml : addModelList (get_providers c) pnA mnA with _ | ⟨ps', w⟩ <;>
    rw [haml] at h
  · simp at h
  · cases w
    · simp only [Except.ok.injEq] at h
      rw [← h]
      exact hm
    · simp only [Except.ok.injEq] at h
      rw [← h]
      show m ∈ firstModels ps' pn
      exact firstModels_addModelList _ _ _ _ _ haml pn m hm

theorem firstModels_delmap (ps : List Provider) (mr : String)
    (pn m : String) (hne : m ≠ mr) (hm : m ∈ firstModels ps pn) :
    m ∈ firstModels (ps.map (fun p =>
      if mr ∈ p.models then { p with models := removeFirst p.models mr }
      else p)) pn := by
  induction ps with
  | nil => simp [firstModels] at hm
  | cons q t ih =>
    by_cases hqn : q.name = pn
    · unfold firstModels at hm ⊢
      rw [List.find?_cons_of_pos _ (by simpa using hqn)] at hm
      dsimp only at hm
      by_cases hq : mr ∈ q.models
      · rw [List.map_cons,
          List.find?_cons_of_pos _ (by simpa [hq] using hqn)]
        simp only [hq, if_true]
        exact removeFirst_mem_of _ _ _ hne hm
      · rw [List.map_cons,
          List.find?_cons_of_pos _ (by simpa [hq] using hqn)]
        simp only [hq, if_false]
        exact hm
    · unfold firstModels at hm ⊢
      rw [List.find?_cons_of_neg _ (by simpa using hqn)] at hm
      by_cases hq : mr ∈ q.models
      · rw [List.map_cons,
          List.find?_cons_of_neg _ (by simpa [hq] using hqn)]
        exact ih hm
      · rw [List.map_cons,
          List.find?_cons_of_neg _ (by simpa [hq] using hqn)]
        exact ih hm

theorem delete_model_mem (c : Config) (mr : String) (c' : Config)
    (h : (delete_model c mr).1 = .ok c') (pn m : String) (hne : m ≠ mr)
    (hm : m ∈ modelsOfFirst c pn) : m ∈ modelsOfFirst c' pn := by
  unfold delete_model at h
  dsimp only at h
  split at h
  · simp only [Except.ok.injEq] at h
    rw [← h]
    show m ∈ firstModels ((get_providers c).map _) pn
    exact firstModels_delmap _ _ _ _ hne hm
  · simp at h

theorem addStep_router (pname : String) (l : List String) :
    ∀ (c : Config) (added : List (String × String)),
      (addStep pname c added l).1.router = c.router := by
  induction l with
  | nil => intro c added; rfl
  | cons m rest ih =>
    intro c added
    rcases ha : (add_model_to_provider c pname m).1 with e | c'
    · simp only [addStep, ha]
      exact ih c added
    · simp only [addStep, ha]
      rw [ih, add_model_to_provider_router c pname m c' ha]

theorem addStep_mem (pname : String) (l : List String) :
    ∀ (c : Config) (added : List (String × String)) (pn m : String),
      m ∈ modelsOfFirst c pn →
      m ∈ modelsOfFirst (addStep pname c added l).1 pn := by
  induction l with
  | nil => intro c added pn m hm; exact hm
  | cons mA rest ih =>
    intro c added pn m hm
    rcases ha : (add_model_to_provider c pname mA).1 with e | c'
    · simp only [addStep, ha]
      exact ih c added pn m hm
    · simp only [addStep, ha]
      exact ih c' _ pn m (add_model_to_provider_mem c pname mA c' ha pn m hm)

theorem removalStep_ret_mono (used : List String) (pname : String)
    (l : List String) :
    ∀ (c : Config) (hrem hret : List (String × String))
      (x : String × String), x ∈ hret →
      x ∈ (removalStep used pname c hrem hret l).2.2 := by
  induction l with
  | nil => intro c hrem hret x hx; exact hx
  | cons mA rest ih =>
    intro c hrem hret x hx
    unfold removalStep
    by_cases hu : mA ∉ used
    · rw [if_pos hu]
      rcases hd : (delete_model c mA).1 with e | c'
      · exact ih c hrem hret x hx
      · exact ih c' _ hret x hx
    · rw [if_neg hu]
      exact ih c hrem _ x (List.mem_append_left _ hx)

theorem removalStep_ret_mem (used : List String) (pname : String)
    (l : List String) :
    ∀ (c : Config) (hrem hret : List (String × String)) (m : String),
      m ∈ l → m ∈ used →
      (pname, m) ∈ (removalStep used pname c hrem hret l).2.2 := by
  induction l with
  | nil => intro c hrem hret m hm; simp at hm
  | cons mA rest ih =>
    intro c hrem hret m hm hu
    rcases List.mem_cons.mp hm with hEq | hTail
    · subst hEq
      unfold removalStep
      rw [if_neg (by simpa using hu)]
      exact removalStep_ret_mono used pname rest c hrem _ _
        (List.mem_append_right _ (by simp))
    · unfold removalStep
      by_cases huA : mA ∉ used
      · rw [if_pos huA]
        rcases hd : (delete_model c mA).1 with e | c'
        · exact ih c hrem hret m hTail hu
        · exact ih c' _ hret m hTail hu
      · rw [if_neg huA]
        exact ih c hrem _ m hTail hu

theorem removalStep_rem_not (used : List String) (pname : String)
    (l : List String) :
    ∀ (c : Config) (hrem hret : List (String × String)) (m : String),
      m ∈ used → (pname, m) ∉ hrem →
      (pname, m) ∉ (removalStep used pname c hrem hret l).2.1 := by
  induction l with
  | nil => intro c hrem hret m hu hnr; exact hnr
  | cons mA rest ih =>
    intro c hrem hret m hu hnr
    unfold removalStep
    by_cases huA : mA ∉ used
    · rw [if_pos huA]
      rcases hd : (delete_model c mA).1 with e | c'
      · exact ih c hrem hret m hu hnr
      · refine ih c' _ hret m hu ?_
        intro hc
        rcases List.mem_append.mp hc with hc | hc
        · exact hnr hc
        · simp only [List.mem_singleton, Prod.mk.injEq] at hc
          exact huA (hc.2 ▸ hu)
    · rw [if_neg huA]
      exact ih c hrem _ m hu hnr

theorem removalStep_mem (used : List String) (pname : String)
    (l : List String) :
    ∀ (c : Config) (hrem hret : List (String × String)) (pn m : String),
      m ∈ used → m ∈ modelsOfFirst c pn →
      m ∈ modelsOfFirst (removalStep used pname c hrem hret l).1 pn := by
  induction l with
  | nil => intro c hrem hret pn m hu hm; exact hm
  | cons mA rest ih =>
    intro c hrem hret pn m hu hm
    unfold removalStep
    by_cases huA : mA ∉ used
    · rw [if_pos huA]
      rcases hd : (delete_model c mA).1 with e | c'
      · exact ih c hrem hret pn m hu hm
      · refine ih c' _ hret pn m hu ?_
        exact delete_model_mem c mA c' hd pn m
          (fun hc => huA (hc ▸ hu)) hm
    · rw [if_neg huA]
      exact ih c hrem _ pn m hu hm

/-! ### Claim C1 -/

/-- C1 (amended): during an update, a model of the processed provider
that is absent from the fetched catalog is never removed when it is in
the protected set — the names collected from every Router entry other
than `longContextThreshold` whose string value contains a comma, as the
stripped suffix after the last comma (assignments without a comma
contribute nothing, see the counterexample): such a model stays in the
provider's model list and is reported as retained, never as removed. -/
theorem C1_update_protects (c : Config) (p : Provider)
    (fetched : List String) (m : String)
    (hfind : (get_providers c).find? (fun q => q.name = p.name) = some p)
    (hmem : m ∈ p.models) (hnf : m ∉ fetched)
    (hused : m ∈ used_models (get_router_config c)) :
    m ∈ modelsOfFirst (update_one_provider c p fetched).1 p.name ∧
    (p.name, m) ∈ (update_one_provider c p fetched).2.retained ∧
    (p.name, m) ∉ (update_one_provider c p fetched).2.removed := by
  have hm0 : m ∈ modelsOfFirst c p.name := by
    rw [modelsOfFirst_of_find c p.name p hfind]; exact hmem
  unfold update_one_provider
  dsimp only
  split
  · refine ⟨hm0, ?_, by simp⟩
    exact List.mem_map.mpr ⟨m, (mem_dedupF _ _).mpr hmem, rfl⟩
  · have hrouter : get_router_config (addStep p.name c []
        ((dedupF fetched).filter (fun x => x ∉ dedupF p.models))).1
        = get_router_config c := by
      unfold get_router_config
      rw [addStep_router]
    have husedA : m ∈ used_models (get_router_config (addStep p.name c []
        ((dedupF fetched).filter (fun x => x ∉ dedupF p.models))).1) := by
      rw [hrouter]; exact hused
    have htoRem : m ∈ (dedupF p.models).filter
        (fun x => x ∉ dedupF fetched) := by
      refine List.mem_filter.mpr ⟨(mem_dedupF _ _).mpr hmem, ?_⟩
      simp only [decide_eq_true_eq, mem_dedupF]
      exact hnf
    refine ⟨?_, ?_, ?_⟩
    · exact removalStep_mem _ p.name _ _ [] [] p.name m husedA
        (addStep_mem p.name _ c [] p.name m hm0)
    · exact List.mem_append_left _
        (removalStep_ret_mem _ p.name _ _ [] [] m htoRem husedA)
    · exact removalStep_rem_not _ p.name _ _ [] [] m husedA (by simp)

/-- The provider record of `docLCT`, as the update loop receives it. -/
def provLCT : Provider := ⟨"p1", "u", none, ["m1", "m2"]⟩

/-- Witness for C1 at a concrete document: with
`longContext = "p1,m1"`, a fetch returning only `m2` keeps `m1` in the
catalog and reports it retained. -/
theorem C1_witness :
    "m1" ∈ modelsOfFirst (update_one_provider docLCT provLCT ["m2"]).1 "p1" ∧
    ("p1", "m1") ∈ (update_one_provider docLCT provLCT ["m2"]).2.retained ∧
    ("p1", "m1") ∉ (update_one_provider docLCT provLCT ["m2"]).2.removed :=
  C1_update_protects docLCT provLCT ["m2"] "m1" rfl (by decide) (by decide)
    (by decide)

/-- A document whose `longContext` assignment is the bare model name
`m1`, with no comma. -/
def docBareLC : Config :=
  ⟨some [("longContext", .str "m1")], some [⟨"p1", "u", none, ["m1", "m2"]⟩]⟩

/-- Counterexample to C1 as stated: under the comma-free assignment
`longContext = "m1"`, the claimed protected set contains the whole
string `m1` (its text after the last comma is itself), yet the update
deletes `m1` from the provider and reports it removed — the code only
protects assignments that contain a comma. -/
theorem C1_counterexample :
    afterLastComma "m1" = "m1" ∧
    (update_one_provider docBareLC provLCT ["m2"]).2.removed
      = [("p1", "m1")] ∧
    "m1" ∉ modelsOfFirst (update_one_provider docBareLC provLCT ["m2"]).1
      "p1" ∧
    ("p1", "m1") ∉ (update_one_provider docBareLC provLCT ["m2"]).2.retained
    := by
  refine ⟨rfl, rfl, by decide, by decide⟩

end CCRS
